import Mathlib

/-!
Verification development for the streaming session bridge of the `ovrlrd`
repository (server side).  The definitions below are a shallow embedding of
the TypeScript sources:

* `src/server/src/services/claude-stream.ts` (the unnamed source file
  `src/unnamed/part_002`): `runClaudeStreaming`, `handleStreamMessage`,
  `cancelStream`, the active-session registry;
* `src/server/src/routes/chat.ts`: `deduplicatePermissionDenials`,
  `createStreamingCallbacks`, `persistStreamResult`;
* the newline-delimited JSON decoder loop shared by `claude-stream.ts`
  and `claude.ts`.

JavaScript strings are modelled as `List Char` (named `Str`).  The only
string operation the code relies on for control flow is the truthiness of
`s.trim()`, i.e. whether `s` consists entirely of whitespace, which is
modelled by `wsOnly`.  JSON parsing (`JSON.parse`) is kept abstract: the
decoder is parametrised by a parse function returning `Option`, mirroring the
`try JSON.parse catch discard` structure of the source.
-/

namespace Ovrlrd

/-- JavaScript strings, modelled as character lists. -/
abbrev Str := List Char

/-- Truthiness of `s.trim()` in JS, negated: `wsOnly s = true` iff `s.trim()`
is the empty string, i.e. `s` is all whitespace. -/
def wsOnly (s : Str) : Bool := s.all (fun c => c.isWhitespace)

/-- JS `s.trim()`: strip leading and trailing whitespace. -/
def trimChars (s : Str) : Str :=
  ((s.dropWhile (fun c => c.isWhitespace)).reverse.dropWhile (fun c => c.isWhitespace)).reverse

/-- JS `a || b` on strings (used by the source as `msg.result` with the fallback text `Unknown error`):
an absent or empty string falls back to the default. -/
def jsOr (o : Option Str) (dflt : Str) : Str :=
  match o with
  | some s => if s = [] then dflt else s
  | none => dflt

/-! ### Line-delimited JSON decoder

Model of the read loop of `runClaudeStreaming` (claude-stream.ts lines
144-175) and `runClaude` (claude.ts lines 45-83):

```
buffer += decoder.decode(value, { stream: true });
const lines = buffer.split('\n');
buffer = lines.pop() || '';
for (const line of lines) {
  if (!line.trim()) continue;
  try { handle(JSON.parse(line)); } catch { /- discard -/ }
}
-- and at stream end:
if (buffer.trim()) { try { handle(JSON.parse(buffer)); } catch { } }
```

`lineAcc s` returns the complete lines of `s` (the fragments before each
newline) together with the trailing fragment after the last newline, i.e.
exactly `(lines, lines.pop())` of `s.split('\n')`.  Byte chunks are
modelled as text chunks: `TextDecoder` with `stream: true` reassembles
UTF-8 across byte boundaries, so every byte partition of the stream induces
the corresponding character partition. -/

/-- Prepend a character to the first line of a split (or to the trailing
fragment if there are no complete lines). -/
def consLine (c : Char) : List Str × Str → List Str × Str
  | ([], b) => ([], c :: b)
  | (l :: ls, b) => ((c :: l) :: ls, b)

/-- Split a text into its complete lines and the trailing fragment. -/
def lineAcc : Str → List Str × Str
  | [] => ([], [])
  | c :: cs =>
    if c = '\n' then ([] :: (lineAcc cs).1, (lineAcc cs).2)
    else consLine c (lineAcc cs)

/-- One line of the decoder loop body: skip a line that is empty after
trimming, otherwise attempt to parse it; a parse failure yields nothing
(the `catch` branch logs at debug level and continues). -/
def processLine {α : Type} (parse : Str → Option α) (l : Str) : Option α :=
  if wsOnly l then none else parse l

/-- Process a list of complete lines in order. -/
def decodeLines {α : Type} (parse : Str → Option α) (ls : List Str) : List α :=
  ls.filterMap (processLine parse)

/-- One iteration of the read loop: append the chunk to the pending buffer,
split off the complete lines, emit their parses, keep the trailing fragment. -/
def feed {α : Type} (parse : Str → Option α) (st : List α × Str) (chunk : Str) :
    List α × Str :=
  (st.1 ++ decodeLines parse (lineAcc (st.2 ++ chunk)).1, (lineAcc (st.2 ++ chunk)).2)

/-- The whole decoder: fold the read loop over the chunks, then parse the
remaining buffer once at stream end (claude-stream.ts lines 167-175). -/
def decodeStream {α : Type} (parse : Str → Option α) (chunks : List Str) : List α :=
  ((chunks.foldl (feed parse) ([], [])).1) ++
    (processLine parse (chunks.foldl (feed parse) ([], [])).2).toList

/-! ### Permission denials and deduplication

chat.ts lines 61-71:

```
function deduplicatePermissionDenials(denials) {
  const seen = new Set<string>();
  return denials.filter((denial) => {
    const key = denial.tool_name + ':' + JSON.stringify(denial.tool_input);
    if (seen.has(key)) return false;
    seen.add(key);
    return true;
  });
}
```

`tool_input` (`Record<string, unknown>`) is modelled as an ordered list of
string key/value pairs; `serializeInput` plays the role of
`JSON.stringify` on it (insertion-ordered keys, quote/backslash escaping). -/

/-- A permission denial as reported by the external process
(claude-stream.ts lines 26-30). -/
structure PermissionDenial where
  tool_name : Str
  tool_use_id : Str
  tool_input : List (Str × Str)
deriving DecidableEq, Repr

/-- JSON string escaping for quotes and backslashes. -/
def escapeChar (c : Char) : Str :=
  if c = '"' then ['\\', '"'] else if c = '\\' then ['\\', '\\'] else [c]

/-- A JSON string literal. -/
def quoteStr (s : Str) : Str :=
  '"' :: (s.flatMap escapeChar) ++ ['"']

/-- One `"key":"value"` entry of a serialized object. -/
def serializeEntry (kv : Str × Str) : Str :=
  quoteStr kv.1 ++ [':'] ++ quoteStr kv.2

/-- `JSON.stringify` on the modelled `tool_input` objects. -/
def serializeInput (kvs : List (Str × Str)) : Str :=
  [Char.ofNat 123] ++ (List.intercalate [','] (kvs.map serializeEntry)) ++ [Char.ofNat 125]

/-- The dedup key of chat.ts line 64. -/
def denialKey (d : PermissionDenial) : Str :=
  d.tool_name ++ [':'] ++ serializeInput d.tool_input

/-- The `filter` of `deduplicatePermissionDenials` with its mutable `seen`
set made explicit. -/
def dedupAux (seen : List Str) : List PermissionDenial → List PermissionDenial
  | [] => []
  | d :: ds =>
    if denialKey d ∈ seen then dedupAux seen ds
    else d :: dedupAux (denialKey d :: seen) ds

/-- chat.ts `deduplicatePermissionDenials`. -/
def deduplicatePermissionDenials (denials : List PermissionDenial) :
    List PermissionDenial :=
  dedupAux [] denials

/-- The claim's description of the result, written independently of the
seen-set implementation: walk the list keeping each denial exactly when no
earlier element of the list (the accumulated `pre`) has its composite key. -/
def firstOccurrencesFrom (pre : List PermissionDenial) :
    List PermissionDenial → List PermissionDenial
  | [] => []
  | d :: ds =>
    if ∀ e ∈ pre, denialKey e ≠ denialKey d
    then d :: firstOccurrencesFrom (pre ++ [d]) ds
    else firstOccurrencesFrom (pre ++ [d]) ds

/-- First occurrence of each denial under the composite key, in first-seen
order. -/
def firstOccurrences (l : List PermissionDenial) : List PermissionDenial :=
  firstOccurrencesFrom [] l

/-- The example denials of C6: two `Write` denials with equal input but
different `tool_use_id`, then a `Bash` denial. -/
def writeDenial1 : PermissionDenial :=
  { tool_name := ("Write").data, tool_use_id := ("1").data,
    tool_input := [(("path").data, ("/a").data)] }

def writeDenial2 : PermissionDenial :=
  { tool_name := ("Write").data, tool_use_id := ("2").data,
    tool_input := [(("path").data, ("/a").data)] }

def bashDenial3 : PermissionDenial :=
  { tool_name := ("Bash").data, tool_use_id := ("3").data,
    tool_input := [(("cmd").data, ("ls").data)] }

/-! ### Stream messages and domain signals

`StreamMessage` mirrors the `StreamMessage` interface of claude-stream.ts
(lines 13-24).  `handleStreamMessage` (lines 207-285) is embedded in two
steps: `classify` extracts, per message, the ordered list of domain signals
(one per content block for `assistant` messages, reproducing the inline
`if`/`else if` of the block loop and the guards of the other `case`s), and
`applySignal` performs exactly the session-state updates and callback
invocations of the corresponding branch.  Folding `applySignal` over
`classify msg` is the source's `switch` statement. -/

/-- One element of an `assistant` message's content array. -/
structure ContentBlock where
  type : Str
  text : Option Str := none
  name : Option Str := none
deriving DecidableEq, Repr

/-- `message.content`: either an array of content blocks or a plain string. -/
inductive MsgContent where
  | blocks (bs : List ContentBlock) : MsgContent
  | str (s : Str) : MsgContent
deriving DecidableEq, Repr

/-- A decoded stream-json event (claude-stream.ts lines 13-24).  `is_error`
is a bare `Bool` because the code only tests its truthiness (absent and
`false` behave identically). -/
structure StreamMessage where
  type : Str
  subtype : Option Str := none
  message : Option MsgContent := none
  result : Option Str := none
  session_id : Option Str := none
  is_error : Bool := false
  permission_denials : Option (List PermissionDenial) := none
deriving DecidableEq, Repr

/-- The classified domain signals.  `slashOutput` is the `user`-message
slash-command output (the spec folds it into `TextDelta`; the code handles
it in its own `case` and, unlike `assistant` text, it does not settle a
pending tool, so it is kept distinct here). -/
inductive Signal where
  | sessionEstablished (sid : Str) : Signal
  | textDelta (t : Str) : Signal
  | toolInvoked (n : Str) : Signal
  | slashOutput (t : Str) : Signal
  | turnResult (r : Option Str) (isErr : Bool) (pd : Option (List PermissionDenial)) : Signal
deriving DecidableEq, Repr

/-- The callbacks of `runClaudeStreaming`'s callback set, as trace events. -/
inductive StreamCb where
  | onChunk (t : Str) : StreamCb
  | onSegmentEnd (s : Str) : StreamCb
  | onToolStart (n : Str) : StreamCb
  | onToolEnd (n : Str) : StreamCb
  | onComplete (r : Str) (sid : Option Str) (pd : Option (List PermissionDenial)) : StreamCb
  | onError (e : Str) : StreamCb
deriving DecidableEq, Repr

/-- The mutable per-turn fields of `StreamSession`
(claude-stream.ts lines 32-45). -/
structure Session where
  sessionId : Option Str
  currentSegment : Str
  lastToolName : Option Str
deriving DecidableEq, Repr

/-- Signal of one `assistant` content block (claude-stream.ts lines
221 and 232): a `text` block with truthy (non-empty) text, or a `tool_use`
block with a truthy name. -/
def blockSignal (b : ContentBlock) : Option Signal :=
  if b.type = ("text").data then
    match b.text with
    | some t => if t = [] then none else some (Signal.textDelta t)
    | none => none
  else if b.type = ("tool_use").data then
    match b.name with
    | some n => if n = [] then none else some (Signal.toolInvoked n)
    | none => none
  else none

/-- First index (if any) at which `needle` occurs in `hay`, as the pair of
the part before and the part after the occurrence. -/
def splitFirst (needle : Str) : Str → Option (Str × Str)
  | [] => none
  | c :: cs =>
    if needle.isPrefixOf (c :: cs) then some ([], (c :: cs).drop needle.length)
    else
      match splitFirst needle cs with
      | some (front, post) => some (c :: front, post)
      | none => none

/-- The regex `<local-command-stdout>([\s\S]*?)<\/local-command-stdout>` of
claude-stream.ts line 275: first opening tag, then the shortest capture up
to the next closing tag. -/
def extractLocalCommandStdout (s : Str) : Option Str :=
  match splitFirst (("<local-command-stdout>").data) s with
  | none => none
  | some (_, rest) =>
    match splitFirst (("</local-command-stdout>").data) rest with
    | none => none
    | some (cap, _) => some cap

/-- The signals of one decoded message, per the `switch` of
`handleStreamMessage`. -/
def classify (msg : StreamMessage) : List Signal :=
  if msg.type = ("system").data then
    -- lines 211-216: `if (msg.subtype is the init subtype and msg.session_id is truthy)`
    if msg.subtype = some (("init").data) then
      match msg.session_id with
      | some sid => if sid = [] then [] else [Signal.sessionEstablished sid]
      | none => []
    else []
  else if msg.type = ("assistant").data then
    -- lines 218-246: iterate the content blocks in order
    match msg.message with
    | some (MsgContent.blocks bs) => bs.filterMap blockSignal
    | _ => []
  else if msg.type = ("result").data then
    -- lines 248-269
    [Signal.turnResult msg.result msg.is_error msg.permission_denials]
  else if msg.type = ("user").data then
    -- lines 271-283: `if (match && match[1])`, then `match[1].trim()`
    match msg.message with
    | some (MsgContent.str s) =>
      (match extractLocalCommandStdout s with
        | some cap => if cap = [] then [] else [Signal.slashOutput (trimChars cap)]
        | none => [])
    | _ => []
  else []

/-- Normalization of `msg.permission_denials` in the `result` case
(claude-stream.ts lines 259-261): an absent or empty list becomes
`undefined`. -/
def pdNorm (pd : Option (List PermissionDenial)) : Option (List PermissionDenial) :=
  match pd with
  | some l => if l = [] then none else some l
  | none => none

/-- The `tool_end` callback a terminal `result` event owes a pending tool
(claude-stream.ts lines 250-254). -/
def toolEndCbPart (s : Session) : List StreamCb :=
  match s.lastToolName with
  | some n => [StreamCb.onToolEnd n]
  | none => []

/-- The session-state update and callback emissions of one signal's branch
of `handleStreamMessage`. -/
def applySignal (s : Session) : Signal → Session × List StreamCb
  | Signal.sessionEstablished sid =>
    ({ s with sessionId := some sid }, [])
  | Signal.textDelta t =>
    -- lines 221-231: close a pending tool, then accumulate and emit chunk
    (match s.lastToolName with
      | some n =>
        ({ s with lastToolName := none, currentSegment := s.currentSegment ++ t },
          [StreamCb.onToolEnd n, StreamCb.onChunk t])
      | none =>
        ({ s with currentSegment := s.currentSegment ++ t }, [StreamCb.onChunk t]))
  | Signal.toolInvoked n =>
    -- lines 232-243: finalize a visible current segment, then tool_start
    (if wsOnly s.currentSegment then
      ({ s with lastToolName := some n }, [StreamCb.onToolStart n])
    else
      ({ s with currentSegment := [], lastToolName := some n },
        [StreamCb.onSegmentEnd s.currentSegment, StreamCb.onToolStart n]))
  | Signal.slashOutput t =>
    -- lines 276-281: accumulate and emit chunk without settling a tool
    ({ s with currentSegment := s.currentSegment ++ t }, [StreamCb.onChunk t])
  | Signal.turnResult r isErr pd =>
    -- lines 248-269: settle a pending tool, then error or completion
    if isErr then
      ({ s with lastToolName := none },
        toolEndCbPart s ++ [StreamCb.onError (jsOr r (("Unknown error").data))])
    else
      ({ s with lastToolName := none },
        toolEndCbPart s ++ [StreamCb.onComplete (jsOr r []) s.sessionId (pdNorm pd)])

/-- claude-stream.ts `handleStreamMessage`: run every signal of the message
in order, accumulating the emitted callbacks. -/
def handleStreamMessage (s : Session) (msg : StreamMessage) : Session × List StreamCb :=
  (classify msg).foldl
    (fun p sig =>
      ((applySignal p.1 sig).1, p.2 ++ (applySignal p.1 sig).2))
    (s, [])

/-! ### The HTTP-layer callbacks (chat.ts `createStreamingCallbacks`)

The SSE events written by `writeSSEEvent` and the `StreamingState` the
route handler threads through the callbacks (chat.ts lines 100-165). -/

/-- The SSE events of the client-facing taxonomy. -/
inductive SSE where
  | chunk (content : Str) : SSE
  | segment_end (conversationId content : Str) : SSE
  | tool_start (toolName : Str) : SSE
  | tool_end (toolName : Str) : SSE
  | permission_required (conversationId : Str) (denials : List PermissionDenial) : SSE
  | complete (conversationId : Str) : SSE
  | no_response (conversationId message : Str) : SSE
  | error (message : Str) : SSE
deriving DecidableEq, Repr

/-- chat.ts `StreamResult` (lines 40-44). -/
structure StreamResult where
  sessionId : Option Str
  permissionDenials : Option (List PermissionDenial) := none
  error : Option Str := none
deriving DecidableEq, Repr

/-- chat.ts `StreamingState` (lines 100-104). -/
structure StreamingState where
  segments : List Str
  currentSegment : Str
  result : StreamResult
deriving DecidableEq, Repr

/-- The `no_response` message text (chat.ts line 154). -/
def noVisibleOutputMsg : Str :=
  ("This command completed but produced no visible output.").data

/-- The `complete` / `no_response` choice of chat.ts lines 149-156:
`state.currentSegment.trim() || state.segments.length > 0`. -/
def visibleChoice (cid : Str) (st : StreamingState) : SSE :=
  if wsOnly st.currentSegment = false ∨ st.segments ≠ [] then SSE.complete cid
  else SSE.no_response cid noVisibleOutputMsg

/-- One callback of `createStreamingCallbacks` (chat.ts lines 106-165):
the state update and the SSE events it writes. -/
def createStreamingCallbacks (cid : Str) (st : StreamingState) :
    StreamCb → StreamingState × List SSE
  | StreamCb.onChunk t =>
    ({ st with currentSegment := st.currentSegment ++ t }, [SSE.chunk t])
  | StreamCb.onSegmentEnd c =>
    -- lines 117-123: push and emit only if `content.trim()`; always reset
    if wsOnly c then ({ st with currentSegment := [] }, [])
    else
      ({ st with segments := st.segments ++ [c], currentSegment := [] },
        [SSE.segment_end cid c])
  | StreamCb.onToolStart n => (st, [SSE.tool_start n])
  | StreamCb.onToolEnd n => (st, [SSE.tool_end n])
  | StreamCb.onComplete _ sid pd =>
    -- lines 133-157
    ({ st with result :=
        { sessionId := sid, permissionDenials := pd.map deduplicatePermissionDenials } },
      [match pd.map deduplicatePermissionDenials with
        | some ds => if ds.length > 0 then SSE.permission_required cid ds else visibleChoice cid st
        | none => visibleChoice cid st])
  | StreamCb.onError e =>
    ({ st with result := { sessionId := none, error := some e } }, [SSE.error e])

/-- Fold the chat callbacks over a burst of stream callbacks. -/
def stepCbs (cid : Str) (st : StreamingState) (cbs : List StreamCb) :
    StreamingState × List SSE :=
  cbs.foldl
    (fun p cb =>
      ((createStreamingCallbacks cid p.1 cb).1, p.2 ++ (createStreamingCallbacks cid p.1 cb).2))
    (st, [])

/-- The joint state of one streaming turn: the subprocess-side session, the
route-side streaming state, and the traces of SSE events and stream
callbacks emitted so far. -/
structure PipeState where
  sess : Session
  chat : StreamingState
  sse : List SSE
  cbs : List StreamCb
deriving DecidableEq, Repr

/-- One classified signal through the whole pipeline: `handleStreamMessage`
branch, then the chat callbacks it invokes, synchronously and in order. -/
def stepSignal (cid : Str) (p : PipeState) (sig : Signal) : PipeState :=
  let sc := applySignal p.sess sig
  let ce := stepCbs cid p.chat sc.2
  { sess := sc.1, chat := ce.1, sse := p.sse ++ ce.2, cbs := p.cbs ++ sc.2 }

/-- The initial pipeline state of a turn (claude-stream.ts lines 110-118,
chat.ts lines 265-269). -/
def initPipeState (claudeSessionId : Option Str) : PipeState :=
  { sess := { sessionId := claudeSessionId, currentSegment := [], lastToolName := none },
    chat := { segments := [], currentSegment := [],
              result := { sessionId := none } },
    sse := [], cbs := [] }

/-- Run a turn over a classified signal script. -/
def runSignals (cid : Str) (claudeSessionId : Option Str) (sigs : List Signal) :
    PipeState :=
  sigs.foldl (stepSignal cid) (initPipeState claudeSessionId)

/-- Run a turn over decoded messages: each message contributes its
classified signals in order. -/
def runMessages (cid : Str) (claudeSessionId : Option Str)
    (msgs : List StreamMessage) : PipeState :=
  runSignals cid claudeSessionId (msgs.flatMap classify)

/-! ### Post-stream persistence (chat.ts `persistStreamResult`) -/

/-- chat.ts `persistStreamResult` (lines 171-218), restricted to its two
persistence effects: the resume-token update passed to
`updateClaudeSessionId`, and the contents of the assistant messages passed
to `createMessage`, in order.  Title generation and push notification are
external collaborators and are not modelled. -/
def persistStreamResult (convToken : Option Str) (st : StreamingState) :
    Option Str × List Str :=
  let tokenUpdate : Option Str :=
    match st.result.sessionId with
    | some sid => if sid ≠ [] ∧ some sid ≠ convToken then some sid else none
    | none => none
  let msgs : List Str :=
    match st.result.permissionDenials with
    | some ds =>
      if ds.length > 0 then
        -- storeSegments (lines 220-227)
        st.segments ++ (if wsOnly st.currentSegment then [] else [st.currentSegment])
      else
        -- lines 189-202: allSegments, stored when non-empty
        (if wsOnly st.currentSegment then st.segments else st.segments ++ [st.currentSegment])
    | none =>
      -- lines 189-202: allSegments, stored when non-empty
      if wsOnly st.currentSegment then st.segments else st.segments ++ [st.currentSegment]
  (tokenUpdate, msgs)

/-! ### Helper lemmas about the pipeline -/

/-- The `tool_end` SSE event a terminal `result` event owes a pending tool. -/
def toolEndPart (s : Session) : List SSE :=
  match s.lastToolName with
  | some n => [SSE.tool_end n]
  | none => []

/-- The terminal SSE event of a successful `result`, described as in the
spec: non-empty (deduplicated) denial list wins, then visible output, else
`no_response`. -/
def terminalChoice (cid : Str) (pd : Option (List PermissionDenial))
    (st : StreamingState) : SSE :=
  match pd with
  | some [] => visibleChoice cid st
  | some (d :: ds) =>
    SSE.permission_required cid (deduplicatePermissionDenials (d :: ds))
  | none => visibleChoice cid st

/-- Signals that leave the whole pipeline state (except the resume token)
untouched: only `sessionEstablished`. -/
def isPassive : Signal → Bool
  | Signal.sessionEstablished _ => true
  | _ => false

/-! ### C4: callback order for the example signal script -/

/-- The C4 signal script: TextDelta("a"), ToolInvoked("Bash"), TextDelta("b"),
TurnSucceeded(""). -/
def c4Signals : List Signal :=
  [Signal.textDelta (("a").data), Signal.toolInvoked (("Bash").data),
    Signal.textDelta (("b").data), Signal.turnResult (some []) false none]

/-! ### C9: whitespace-only text is invisible at the public interface -/

/-- Predicate: an SSE event is not a `segment_end` carrying whitespace-only
content. -/
def segEndVisible : SSE → Bool
  | SSE.segment_end _ c => !(wsOnly c)
  | _ => true

/-- Predicate: a stream callback is not an `onSegmentEnd` carrying
whitespace-only content. -/
def cbSegEndVisible : StreamCb → Bool
  | StreamCb.onSegmentEnd c => !(wsOnly c)
  | _ => true

/-- Predicate: all text carried by a signal is whitespace. -/
def textPayloadWs : Signal → Bool
  | Signal.textDelta t => wsOnly t
  | Signal.slashOutput t => wsOnly t
  | _ => true

/-- Predicate: the signal is a terminal `result` signal. -/
def isTurnResultSig : Signal → Bool
  | Signal.turnResult _ _ _ => true
  | _ => false

/-- The whitespace invariant used for the all-whitespace-script part of C9. -/
def wsInv (p : PipeState) : Prop :=
  p.chat.segments = [] ∧ wsOnly p.chat.currentSegment = true ∧
    wsOnly p.sess.currentSegment = true

/-! ### C10: delivery of the resume token (`session_id`) -/

/-- The update the `system`/`init` case of `handleStreamMessage` applies to
`session.sessionId` (claude-stream.ts lines 211-216): the `session_id` of an
init event is adopted only when present and non-empty (JS truthiness). -/
def sessionIdUpdate (acc : Option Str) (m : StreamMessage) : Option Str :=
  if m.type = ("system").data ∧ m.subtype = some (("init").data) then
    match m.session_id with
    | some s => if s = [] then acc else some s
    | none => acc
  else acc

/-- The session id after observing a message list: the `session_id` of the
most recent `system`/`init` event carrying a non-empty `session_id`, falling
back to the caller-supplied value. -/
def lastInitSessionId (msgs : List StreamMessage) (fallback : Option Str) : Option Str :=
  msgs.foldl sessionIdUpdate fallback

/-- Modelled from the claim C10 as stated: "the session_id carried by the
most recent system/init event observed on the stream", with fallback to the
caller-supplied value when no such event arrived — an init event carrying an
empty `session_id` still counts as carrying one here. -/
def claimedLastInitSessionId (msgs : List StreamMessage) (fallback : Option Str) :
    Option Str :=
  msgs.foldl
    (fun acc m =>
      if m.type = ("system").data ∧ m.subtype = some (("init").data) then
        match m.session_id with
        | some s => some s
        | none => acc
      else acc)
    fallback

/-- The signal-level form of the session-id update. -/
def sigSidUpdate (acc : Option Str) : Signal → Option Str
  | Signal.sessionEstablished s => some s
  | _ => acc

/-- The session ids delivered to `onComplete` during a turn, in order. -/
def cbCompletedSid : StreamCb → Option (Option Str)
  | StreamCb.onComplete _ sid _ => some sid
  | _ => none

/-- All session ids handed to `onComplete` in the turn's callback trace. -/
def completedSids (p : PipeState) : List (Option Str) :=
  p.cbs.filterMap cbCompletedSid

/-- The C10 counterexample events: an `init` event whose `session_id` is
present but empty, then a success result. -/
def initEmptySid : StreamMessage :=
  { type := ("system").data, subtype := some (("init").data), session_id := some [] }

def resultDoneMsg : StreamMessage :=
  { type := ("result").data, result := some (("done").data) }

/-! ### The turn interpreter: `runClaudeStreaming`

A trace model of claude-stream.ts `runClaudeStreaming` (lines 56-205).  A
`TurnScript` fixes the environment's behaviour for one turn: whether the
registry already holds a session for this conversation, whether the
`stdin.write` throws, the interleaving of stdout chunks (given as their
decoded messages — the byte-level decoder is verified separately) with the
timeout timer firing (the timer callback runs only at the `await`
suspension points of the read loop, i.e. between chunks), and how the read
loop ends (EOF or a read error).  The interpreter returns the final state
and the ordered trace of effects: eviction of the old session, spawn,
registry insertion, timer cancellation (`clearTimeout()` calls), reader
lock release, registry removal, process kills, and every callback
invocation. -/

/-- An event the environment delivers while the read loop runs. -/
inductive MidEvent where
  | chunk (msgs : List StreamMessage) : MidEvent
  | timerFires : MidEvent
deriving DecidableEq, Repr

/-- How the read loop ends: `done` (EOF) or a read error. -/
inductive LoopEnd where
  | eofEnd : LoopEnd
  | readErr (e : Str) : LoopEnd
deriving DecidableEq, Repr

/-- One turn's environment schedule. -/
structure TurnScript where
  hasExisting : Bool
  writeFails : Bool
  mids : List MidEvent
  fin : LoopEnd
deriving DecidableEq, Repr

/-- The observable effects of a turn, in order. -/
inductive Action where
  | evictCancelTimer : Action
  | evictKill : Action
  | evictDelete : Action
  | spawnProc : Action
  | registerSession : Action
  | cancelTimer : Action
  | releaseLock : Action
  | deleteSession : Action
  | killSelf : Action
  | cb (c : StreamCb) : Action
deriving DecidableEq, Repr

/-- The state of one turn's resources: its session fields, whether the
timeout timer is still pending, whether the timeout has fired, whether the
stdout reader lock is held, and whether the active-session registry still
holds this conversation's entry. -/
structure TurnState where
  session : Session
  timerActive : Bool
  timedOut : Bool
  lockHeld : Bool
  inRegistry : Bool
deriving DecidableEq, Repr

/-- Handle the decoded messages of one stdout chunk in order
(claude-stream.ts lines 155-164). -/
def runChunkMsgs (sess : Session) (msgs : List StreamMessage) :
    Session × List StreamCb :=
  msgs.foldl
    (fun p m => ((handleStreamMessage p.1 m).1, p.2 ++ (handleStreamMessage p.1 m).2))
    (sess, [])

/-- The error message of the timeout callback (line 107). -/
def timeoutMsg : Str := ("Request timed out").data

/-- One mid-loop event: a chunk is decoded and handled; the timer, if still
pending, fires its callback — `timedOut = true`, `onError`, `proc.kill()`
(claude-config.ts lines 103-106, claude-stream.ts lines 104-108) — with no
one-shot guard against callbacks already fired. -/
def midStep (st : TurnState) : MidEvent → TurnState × List Action
  | MidEvent.chunk msgs =>
    ({ st with session := (runChunkMsgs st.session msgs).1 },
      ((runChunkMsgs st.session msgs).2).map Action.cb)
  | MidEvent.timerFires =>
    if st.timerActive then
      ({ st with timerActive := false, timedOut := true },
        [Action.cb (StreamCb.onError timeoutMsg), Action.killSelf])
    else (st, [])

/-- The read loop over the scheduled mid-loop events. -/
def runMids (st : TurnState) (mids : List MidEvent) : TurnState × List Action :=
  mids.foldl
    (fun p ev => ((midStep p.1 ev).1, p.2 ++ (midStep p.1 ev).2))
    (st, [])

/-- The `onError` message of the stdin-write failure path (line 130),
with the interpolated exception elided. -/
def writeFailMsg : Str := ("Failed to send message").data

/-- claude-stream.ts `runClaudeStreaming` as a trace function.
Control flow mirrored from the source:
lines 82-92 evict any existing session (cancel its timer, kill its process
swallowing errors, delete its entry) before line 94 spawns the new process;
line 104 arms the timer; line 120 registers the session; lines 123-137 write
to stdin and, on failure, cancel the timer, delete the registry entry,
report `onError`, kill the process and return — without ever acquiring the
stdout reader; line 140 acquires the reader lock; lines 144-180 run the read
loop (a read error reports `onError` unless the timeout already did); and
the `finally` at lines 181-186 always runs `clearTimeout()`,
`reader.releaseLock()` and `activeSessions.delete(conversationId)`, in that
order, exactly once. -/
def runClaudeStreaming (script : TurnScript) (claudeSessionId : Option Str) :
    TurnState × List Action :=
  let evictActs : List Action :=
    if script.hasExisting then
      [Action.evictCancelTimer, Action.evictKill, Action.evictDelete]
    else []
  let st0 : TurnState :=
    { session := { sessionId := claudeSessionId, currentSegment := [], lastToolName := none },
      timerActive := true, timedOut := false, lockHeld := false, inRegistry := true }
  let preActs : List Action := evictActs ++ [Action.spawnProc, Action.registerSession]
  if script.writeFails then
    ({ st0 with timerActive := false, inRegistry := false },
      preActs ++ [Action.cancelTimer, Action.deleteSession,
        Action.cb (StreamCb.onError writeFailMsg), Action.killSelf])
  else
    let mr := runMids { st0 with lockHeld := true } script.mids
    let endActs : List Action :=
      match script.fin with
      | LoopEnd.eofEnd => []
      | LoopEnd.readErr e =>
        if mr.1.timedOut then []
        else [Action.cb (StreamCb.onError ((("Stream read error: ").data) ++ e))]
    ({ mr.1 with timerActive := false, lockHeld := false, inRegistry := false },
      preActs ++ mr.2 ++ endActs ++
        [Action.cancelTimer, Action.releaseLock, Action.deleteSession])

/-- claude-stream.ts `cancelStream` (lines 290-304) against the post-turn
state of this conversation's registry entry: if an entry exists, cancel its
timer, kill its process, remove it and return `true`; otherwise return
`false`. -/
def cancelStream (st : TurnState) : Bool × List Action :=
  if st.inRegistry then
    (true, [Action.cancelTimer, Action.killSelf, Action.deleteSession])
  else (false, [])

/-- The three cleanup actions of the resource-release invariant. -/
def isCleanupAction : Action → Bool
  | Action.cancelTimer => true
  | Action.releaseLock => true
  | Action.deleteSession => true
  | _ => false

/-- Terminal callbacks: `onComplete` (which the HTTP layer maps to exactly
one of `complete`, `no_response`, `permission_required`) and `onError`. -/
def isTerminalCb : Action → Bool
  | Action.cb (StreamCb.onComplete _ _ _) => true
  | Action.cb (StreamCb.onError _) => true
  | _ => false

/-- The C2 failing schedule: the stream delivers a successful `result`
event, then the 120 s timer fires before the stdout stream closes. -/
def c2Script : TurnScript :=
  { hasExisting := false, writeFails := false,
    mids := [MidEvent.chunk [resultDoneMsg], MidEvent.timerFires],
    fin := LoopEnd.eofEnd }

/-- A concrete parse function for the C8 witness: accepts the line `1`. -/
def witnessParse (l : Str) : Option Nat :=
  if l = ("1").data then some 1 else none

/-! ### Theorems -/

theorem consLine_fst_ne_nil (c : Char) (p : List Str × Str) (h : p.1 ≠ []) :
    consLine c p = ((c :: p.1.headI) :: p.1.tail, p.2) := by
  rcases p with ⟨ls, b⟩
  cases ls with
  | nil => exact absurd rfl h
  | cons l ls => simp [consLine]

theorem lineAcc_cons_newline (cs : Str) :
    lineAcc ('\n' :: cs) = ([] :: (lineAcc cs).1, (lineAcc cs).2) := by
  simp [lineAcc]

theorem lineAcc_cons_other (c : Char) (cs : Str) (hc : c ≠ '\n') :
    lineAcc (c :: cs) = consLine c (lineAcc cs) := by
  simp [lineAcc, hc]

theorem lineAcc_append (a b : Str) :
    lineAcc (a ++ b) =
      ((lineAcc a).1 ++ (lineAcc ((lineAcc a).2 ++ b)).1,
        (lineAcc ((lineAcc a).2 ++ b)).2) := by
  induction a with
  | nil => simp [lineAcc]
  | cons c a' ih =>
    by_cases hc : c = '\n'
    · subst hc
      have h1 : ('\n' :: a') ++ b = '\n' :: (a' ++ b) := rfl
      rw [h1, lineAcc_cons_newline, lineAcc_cons_newline, ih]
      simp
    · have h1 : (c :: a') ++ b = c :: (a' ++ b) := rfl
      rw [h1, lineAcc_cons_other c _ hc, lineAcc_cons_other c _ hc, ih]
      rcases h' : lineAcc a' with ⟨A1, Ab⟩
      cases A1 with
      | nil =>
        have h2 : (consLine c (([] : List Str), Ab)).2 ++ b = c :: (Ab ++ b) := rfl
        rw [h2, lineAcc_cons_other c _ hc]
        rcases hx : lineAcc (Ab ++ b) with ⟨X1, Xb⟩
        simp [consLine]
      | cons l ls =>
        have h2 : (consLine c (l :: ls, Ab)).2 ++ b = Ab ++ b := rfl
        rw [h2]
        rcases hx : lineAcc (Ab ++ b) with ⟨X1, Xb⟩
        simp [consLine]

theorem lineAcc_no_newline (s : Str) (h : ('\n' : Char) ∉ s) :
    lineAcc s = ([], s) := by
  induction s with
  | nil => simp [lineAcc]
  | cons c cs ih =>
    have hc : c ≠ '\n' := fun hcc => h (hcc ▸ List.mem_cons_self c cs)
    have hcs : ('\n' : Char) ∉ cs := fun hm => h (List.mem_cons_of_mem c hm)
    simp [lineAcc, hc, ih hcs, consLine]

theorem lineAcc_buffer_no_newline (s : Str) : ('\n' : Char) ∉ (lineAcc s).2 := by
  induction s with
  | nil => simp [lineAcc]
  | cons c cs ih =>
    by_cases hc : c = '\n'
    · simpa [lineAcc, hc] using ih
    · rcases h' : lineAcc cs with ⟨ls, b⟩
      rw [h'] at ih
      cases ls with
      | nil =>
        simp only [lineAcc, if_neg hc, h', consLine, List.mem_cons]
        rintro (rfl | hm)
        · exact hc rfl
        · exact ih hm
      | cons l ls' => simpa [lineAcc, hc, h', consLine] using ih

theorem foldl_feed {α : Type} (parse : Str → Option α) (cs : List Str) :
    ∀ (out : List α) (buf : Str), ('\n' : Char) ∉ buf →
      cs.foldl (feed parse) (out, buf) =
        (out ++ decodeLines parse (lineAcc (buf ++ cs.flatten)).1,
          (lineAcc (buf ++ cs.flatten)).2) := by
  induction cs with
  | nil =>
    intro out buf hbuf
    simp [lineAcc_no_newline buf hbuf, decodeLines]
  | cons c cs' ih =>
    intro out buf _
    have hstep : feed parse (out, buf) c =
        (out ++ decodeLines parse (lineAcc (buf ++ c)).1, (lineAcc (buf ++ c)).2) := rfl
    have hbuf' : ('\n' : Char) ∉ (lineAcc (buf ++ c)).2 := lineAcc_buffer_no_newline _
    have happ := lineAcc_append (buf ++ c) cs'.flatten
    calc (c :: cs').foldl (feed parse) (out, buf)
        = cs'.foldl (feed parse) (feed parse (out, buf) c) := rfl
      _ = cs'.foldl (feed parse)
            (out ++ decodeLines parse (lineAcc (buf ++ c)).1, (lineAcc (buf ++ c)).2) := by
            rw [hstep]
      _ = ((out ++ decodeLines parse (lineAcc (buf ++ c)).1) ++
              decodeLines parse (lineAcc ((lineAcc (buf ++ c)).2 ++ cs'.flatten)).1,
            (lineAcc ((lineAcc (buf ++ c)).2 ++ cs'.flatten)).2) := ih _ _ hbuf'
      _ = (out ++ decodeLines parse (lineAcc (buf ++ (c :: cs').flatten)).1,
            (lineAcc (buf ++ (c :: cs').flatten)).2) := by
            have : buf ++ (c :: cs').flatten = (buf ++ c) ++ cs'.flatten := by
              simp [List.flatten]
            rw [this, happ]
            simp [decodeLines]

/-- C7: for every partition of a newline-delimited stream into chunks,
feeding the decoder loop the chunks in order — keeping the trailing fragment
as the pending buffer and parsing the leftover buffer once at stream end —
yields the same ordered list of parsed objects as feeding the entire stream
as a single chunk.  The parse function is abstract, covering `JSON.parse`
on every newline-delimited JSON stream. -/
theorem decoder_chunk_invariance {α : Type} (parse : Str → Option α) (chunks : List Str) :
    decodeStream parse chunks = decodeStream parse [chunks.flatten] := by
  have h1 := foldl_feed parse chunks [] [] (by simp)
  have h2 := foldl_feed parse [chunks.flatten] [] [] (by simp)
  simp only [decodeStream, h1, h2]
  simp

/-- C8: a complete line that is non-empty after trimming but is not valid
JSON is silently discarded: the decoder is a total function (no exception
propagates, the stream is not failed), and the parses of the surrounding
valid lines are exactly those obtained with the bad line absent. -/
theorem invalid_line_discarded {α : Type} (parse : Str → Option α)
    (xs ys : List Str) (bad : Str)
    (hnonempty : wsOnly bad = false) (hbadjson : parse bad = none) :
    decodeLines parse (xs ++ [bad] ++ ys) = decodeLines parse (xs ++ ys) := by
  simp [decodeLines, processLine, hnonempty, hbadjson]

theorem dedupAux_seen_congr (l : List PermissionDenial) :
    ∀ s1 s2 : List Str, (∀ k, k ∈ s1 ↔ k ∈ s2) → dedupAux s1 l = dedupAux s2 l := by
  induction l with
  | nil => intro s1 s2 _; rfl
  | cons d ds ih =>
    intro s1 s2 hiff
    by_cases hmem : denialKey d ∈ s1
    · have hmem2 : denialKey d ∈ s2 := (hiff _).mp hmem
      simp only [dedupAux, if_pos hmem, if_pos hmem2]
      exact ih s1 s2 hiff
    · have hmem2 : denialKey d ∉ s2 := fun h => hmem ((hiff _).mpr h)
      simp only [dedupAux, if_neg hmem, if_neg hmem2]
      have : ∀ k, k ∈ denialKey d :: s1 ↔ k ∈ denialKey d :: s2 := by
        intro k; simp [hiff k]
      rw [ih _ _ this]

theorem dedupAux_eq_firstOccurrencesFrom (l : List PermissionDenial) :
    ∀ pre : List PermissionDenial,
      dedupAux (pre.map denialKey) l = firstOccurrencesFrom pre l := by
  induction l with
  | nil => intro pre; rfl
  | cons d ds ih =>
    intro pre
    by_cases hfirst : ∀ e ∈ pre, denialKey e ≠ denialKey d
    · have hnotmem : denialKey d ∉ pre.map denialKey := by
        intro hm
        rcases List.mem_map.mp hm with ⟨e, he, hk⟩
        exact hfirst e he hk
      simp only [dedupAux, if_neg hnotmem, firstOccurrencesFrom, if_pos hfirst]
      have hcongr : ∀ k, k ∈ denialKey d :: pre.map denialKey ↔
          k ∈ (pre ++ [d]).map denialKey := by
        intro k; simp [or_comm]
      rw [dedupAux_seen_congr ds _ _ hcongr, ih (pre ++ [d])]
    · have hmem : denialKey d ∈ pre.map denialKey := by
        push_neg at hfirst
        rcases hfirst with ⟨e, he, hk⟩
        exact List.mem_map.mpr ⟨e, he, hk⟩
      simp only [dedupAux, if_pos hmem, firstOccurrencesFrom, if_neg hfirst]
      have hcongr : ∀ k, k ∈ pre.map denialKey ↔ k ∈ (pre ++ [d]).map denialKey := by
        intro k
        simp only [List.map_append, List.map_cons, List.map_nil, List.mem_append,
          List.mem_singleton, iff_self_or]
        intro hk; exact hk ▸ hmem
      rw [dedupAux_seen_congr ds _ _ hcongr, ih (pre ++ [d])]

/-- C6: `deduplicatePermissionDenials` returns exactly the first occurrence
of each denial under the composite key `(tool_name, serialized tool_input)`,
preserving first-seen order and dropping later duplicates even when their
`tool_use_id` differs; in particular the example list
`[Write/path:/a/id 1, Write/path:/a/id 2, Bash/cmd:ls/id 3]` deduplicates
to the first `Write` denial followed by the `Bash` denial. -/
theorem dedup_keeps_first_occurrences :
    (∀ l : List PermissionDenial, deduplicatePermissionDenials l = firstOccurrences l)
    ∧ deduplicatePermissionDenials [writeDenial1, writeDenial2, bashDenial3] =
        [writeDenial1, bashDenial3] := by
  constructor
  · intro l
    exact dedupAux_eq_firstOccurrencesFrom l []
  · decide

theorem dedup_cons (d : PermissionDenial) (ds : List PermissionDenial) :
    deduplicatePermissionDenials (d :: ds) = d :: dedupAux [denialKey d] ds := by
  simp [deduplicatePermissionDenials, dedupAux]

/-- Full effect of processing a successful terminal `result` signal from an
arbitrary pipeline state. -/
theorem stepTurnResult (cid : Str) (p : PipeState) (r : Option Str)
    (pd : Option (List PermissionDenial)) :
    stepSignal cid p (Signal.turnResult r false pd) =
      { sess := { p.sess with lastToolName := none },
        chat := { p.chat with result :=
          { sessionId := p.sess.sessionId,
            permissionDenials := (pdNorm pd).map deduplicatePermissionDenials } },
        sse := p.sse ++ toolEndPart p.sess ++ [terminalChoice cid pd p.chat],
        cbs := p.cbs ++ toolEndCbPart p.sess ++
          [StreamCb.onComplete (jsOr r []) p.sess.sessionId (pdNorm pd)] } := by
  cases hlt : p.sess.lastToolName with
  | none =>
    cases pd with
    | none =>
      simp [stepSignal, applySignal, stepCbs, createStreamingCallbacks,
        toolEndCbPart, toolEndPart, terminalChoice, pdNorm, hlt]
    | some l =>
      cases l with
      | nil =>
        simp [stepSignal, applySignal, stepCbs, createStreamingCallbacks,
          toolEndCbPart, toolEndPart, terminalChoice, pdNorm, hlt]
      | cons d ds =>
        simp [stepSignal, applySignal, stepCbs, createStreamingCallbacks,
          toolEndCbPart, toolEndPart, terminalChoice, pdNorm, hlt, dedup_cons]
  | some n =>
    cases pd with
    | none =>
      simp [stepSignal, applySignal, stepCbs, createStreamingCallbacks,
        toolEndCbPart, toolEndPart, terminalChoice, pdNorm, hlt]
    | some l =>
      cases l with
      | nil =>
        simp [stepSignal, applySignal, stepCbs, createStreamingCallbacks,
          toolEndCbPart, toolEndPart, terminalChoice, pdNorm, hlt]
      | cons d ds =>
        simp [stepSignal, applySignal, stepCbs, createStreamingCallbacks,
          toolEndCbPart, toolEndPart, terminalChoice, pdNorm, hlt, dedup_cons]

theorem runSignals_append (cid : Str) (cs : Option Str) (l1 l2 : List Signal) :
    runSignals cid cs (l1 ++ l2) = l2.foldl (stepSignal cid) (runSignals cid cs l1) := by
  simp [runSignals, List.foldl_append]

theorem passive_foldl (cid : Str) (sigs : List Signal) :
    ∀ p : PipeState, sigs.all isPassive = true →
      (sigs.foldl (stepSignal cid) p).chat = p.chat ∧
      (sigs.foldl (stepSignal cid) p).sse = p.sse ∧
      (sigs.foldl (stepSignal cid) p).cbs = p.cbs ∧
      (sigs.foldl (stepSignal cid) p).sess.currentSegment = p.sess.currentSegment ∧
      (sigs.foldl (stepSignal cid) p).sess.lastToolName = p.sess.lastToolName := by
  induction sigs with
  | nil => intro p _; exact ⟨rfl, rfl, rfl, rfl, rfl⟩
  | cons sig sigs ih =>
    intro p hall
    rw [List.all_cons, Bool.and_eq_true] at hall
    have h1 : isPassive sig = true := hall.1
    cases sig with
    | sessionEstablished sid =>
      have hstep : stepSignal cid p (Signal.sessionEstablished sid) =
          { p with sess := { p.sess with sessionId := some sid } } := by
        simp [stepSignal, applySignal, stepCbs]
      have := ih (stepSignal cid p (Signal.sessionEstablished sid)) hall.2
      rw [hstep] at this
      simpa [List.foldl_cons, hstep] using this
    | textDelta t => simp [isPassive] at h1
    | toolInvoked n => simp [isPassive] at h1
    | slashOutput t => simp [isPassive] at h1
    | turnResult r e d => simp [isPassive] at h1

/-- C4 counterexample: the claimed callback order ends with
`segment_end("b")` before `complete`, but the pipeline never finalizes the
final segment at the terminal event — the actual trace goes straight from
`chunk("b")` to `complete`, and no `segment_end` carrying `"b"` ever fires. -/
theorem c4_no_terminal_segment_end :
    (runSignals (("c").data) none c4Signals).sse ≠
      [SSE.chunk (("a").data), SSE.segment_end (("c").data) (("a").data),
        SSE.tool_start (("Bash").data), SSE.tool_end (("Bash").data),
        SSE.chunk (("b").data), SSE.segment_end (("c").data) (("b").data),
        SSE.complete (("c").data)]
    ∧ SSE.segment_end (("c").data) (("b").data) ∉ (runSignals (("c").data) none c4Signals).sse := by
  constructor
  · decide
  · decide

/-- C4 (amended): for the script TextDelta("a"), ToolInvoked("Bash"),
TextDelta("b"), TurnSucceeded(""), the callbacks fire in exactly the order
chunk("a"), segment_end("a"), tool_start("Bash"), tool_end("Bash"),
chunk("b"), complete — the final segment (the text b) is not finalized by a
`segment_end` at the terminal event but carried as current-segment text
into the completion decision — and no tool_end fires before the
TextDelta("b") signal arrives (the trace of the first two signals contains
no tool_end). -/
theorem c4_callback_order :
    (runSignals (("c").data) none c4Signals).sse =
      [SSE.chunk (("a").data), SSE.segment_end (("c").data) (("a").data),
        SSE.tool_start (("Bash").data), SSE.tool_end (("Bash").data),
        SSE.chunk (("b").data), SSE.complete (("c").data)]
    ∧ (runSignals (("c").data) none (c4Signals.take 2)).sse =
      [SSE.chunk (("a").data), SSE.segment_end (("c").data) (("a").data),
        SSE.tool_start (("Bash").data)] := by
  constructor
  · decide
  · decide

/-! ### C5: the terminal-event decision -/

/-- C5: when a successful terminal `result` signal is processed, the SSE
events it adds are the pending tool's `tool_end` (if any) followed by
exactly one terminal event chosen as follows: `permission_required` with
the deduplicated denial list when the denial list is non-empty, otherwise
`complete` when any finalized segment or visible current-segment text
exists, otherwise `no_response`; and a turn with no text, tool or denial
signals before the success result yields exactly the single callback
`no_response`.  (Signals that the spec's classifier labels `TextDelta`
cover both `textDelta` and `slashOutput` here.) -/
theorem terminal_event_choice :
    (∀ (cid : Str) (p : PipeState) (r : Option Str)
        (pd : Option (List PermissionDenial)),
      (stepSignal cid p (Signal.turnResult r false pd)).sse =
        p.sse ++ toolEndPart p.sess ++ [terminalChoice cid pd p.chat])
    ∧ (∀ (cid : Str) (cs : Option Str) (sigs : List Signal) (r : Option Str)
        (pd : Option (List PermissionDenial)),
      sigs.all isPassive = true → pdNorm pd = none →
      (runSignals cid cs (sigs ++ [Signal.turnResult r false pd])).sse =
        [SSE.no_response cid noVisibleOutputMsg]) := by
  constructor
  · intro cid p r pd
    rw [stepTurnResult]
  · intro cid cs sigs r pd hpassive hpd
    rw [runSignals_append]
    have hpre := passive_foldl cid sigs (initPipeState cs) hpassive
    rcases hpre with ⟨hchat, hsse, _, _, hlast⟩
    have hrs : runSignals cid cs sigs = List.foldl (stepSignal cid) (initPipeState cs) sigs := rfl
    simp only [List.foldl_cons, List.foldl_nil, hrs]
    rw [stepTurnResult]
    simp only [hchat, hsse]
    have hl2 : (List.foldl (stepSignal cid) (initPipeState cs) sigs).sess.lastToolName = none := by
      rw [hlast]; rfl
    have : toolEndPart (List.foldl (stepSignal cid) (initPipeState cs) sigs).sess = [] := by
      simp [toolEndPart, hl2]
    rw [this]
    cases pd with
    | none => simp [initPipeState, terminalChoice, visibleChoice, wsOnly]
    | some l =>
      cases l with
      | nil => simp [initPipeState, terminalChoice, visibleChoice, wsOnly]
      | cons d ds => simp [pdNorm] at hpd

/-- Witness for C5 at concrete inputs: a turn consisting only of a
`system/init` signal and a denial-free success result yields exactly
`no_response`; and the terminal-step equation at a concrete state. -/
theorem terminal_event_choice_witness :
    (runSignals (("c").data) none
        ([Signal.sessionEstablished (("s").data)] ++ [Signal.turnResult (some []) false none])).sse =
      [SSE.no_response (("c").data) noVisibleOutputMsg] :=
  terminal_event_choice.2 (("c").data) none [Signal.sessionEstablished (("s").data)]
    (some []) none (by decide) (by decide)

theorem wsOnly_append (a b : Str) : wsOnly (a ++ b) = (wsOnly a && wsOnly b) := by
  simp [wsOnly, List.all_append]

theorem createStreamingCallbacks_segEndVisible (cid : Str) (st : StreamingState)
    (cb : StreamCb) :
    ((createStreamingCallbacks cid st cb).2).all segEndVisible = true := by
  cases cb with
  | onChunk t => simp [createStreamingCallbacks, segEndVisible]
  | onSegmentEnd c =>
    by_cases h : wsOnly c = true
    · simp [createStreamingCallbacks, h]
    · simp only [Bool.not_eq_true] at h
      simp [createStreamingCallbacks, h, segEndVisible]
  | onToolStart n => simp [createStreamingCallbacks, segEndVisible]
  | onToolEnd n => simp [createStreamingCallbacks, segEndVisible]
  | onComplete r sid pd =>
    cases hd : pd.map deduplicatePermissionDenials with
    | none =>
      simp only [createStreamingCallbacks, hd, List.all_cons, List.all_nil, Bool.and_true]
      unfold visibleChoice
      by_cases h : wsOnly st.currentSegment = false ∨ st.segments ≠ []
      · simp [h, segEndVisible]
      · simp [h, segEndVisible]
    | some ds =>
      simp only [createStreamingCallbacks, hd, List.all_cons, List.all_nil, Bool.and_true]
      by_cases hl : ds.length > 0
      · simp [hl, segEndVisible]
      · simp only [hl, if_false]
        unfold visibleChoice
        by_cases h : wsOnly st.currentSegment = false ∨ st.segments ≠ []
        · simp [h, segEndVisible]
        · simp [h, segEndVisible]
  | onError e => simp [createStreamingCallbacks, segEndVisible]

theorem applySignal_cbSegEndVisible (s : Session) (sig : Signal) :
    ((applySignal s sig).2).all cbSegEndVisible = true := by
  cases sig with
  | sessionEstablished sid => simp [applySignal]
  | textDelta t =>
    cases h : s.lastToolName with
    | none => simp [applySignal, h, cbSegEndVisible]
    | some n => simp [applySignal, h, cbSegEndVisible]
  | toolInvoked n =>
    by_cases h : wsOnly s.currentSegment = true
    · simp [applySignal, h, cbSegEndVisible]
    · simp only [Bool.not_eq_true] at h
      simp [applySignal, h, cbSegEndVisible]
  | slashOutput t => simp [applySignal, cbSegEndVisible]
  | turnResult r isErr pd =>
    cases hlt : s.lastToolName with
    | none =>
      cases isErr with
      | false => simp [applySignal, hlt, toolEndCbPart, cbSegEndVisible]
      | true => simp [applySignal, hlt, toolEndCbPart, cbSegEndVisible]
    | some n =>
      cases isErr with
      | false => simp [applySignal, hlt, toolEndCbPart, cbSegEndVisible]
      | true => simp [applySignal, hlt, toolEndCbPart, cbSegEndVisible]

theorem stepCbs_sse_all (cid : Str) (Q : SSE → Bool)
    (hQ : ∀ st cb, ((createStreamingCallbacks cid st cb).2).all Q = true)
    (cbs : List StreamCb) :
    ∀ (st : StreamingState) (acc : List SSE), acc.all Q = true →
      ((cbs.foldl
        (fun p cb =>
          ((createStreamingCallbacks cid p.1 cb).1,
            p.2 ++ (createStreamingCallbacks cid p.1 cb).2))
        (st, acc)).2).all Q = true := by
  induction cbs with
  | nil => intro st acc hacc; simpa using hacc
  | cons cb cbs ih =>
    intro st acc hacc
    simp only [List.foldl_cons]
    exact ih _ _ (by simp [List.all_append, hacc, hQ st cb])

theorem runSignals_sse_all (cid : Str) (Q : SSE → Bool)
    (hQ : ∀ st cb, ((createStreamingCallbacks cid st cb).2).all Q = true)
    (sigs : List Signal) :
    ∀ p : PipeState, p.sse.all Q = true →
      ((sigs.foldl (stepSignal cid) p).sse).all Q = true := by
  induction sigs with
  | nil => intro p hp; simpa using hp
  | cons sig sigs ih =>
    intro p hp
    simp only [List.foldl_cons]
    apply ih
    have hnew : ((stepCbs cid p.chat (applySignal p.sess sig).2).2).all Q = true :=
      stepCbs_sse_all cid Q hQ _ _ _ (by simp)
    simp [stepSignal, List.all_append, hp, hnew]

theorem runSignals_cbs_all (cid : Str) (R : StreamCb → Bool)
    (hR : ∀ s sig, ((applySignal s sig).2).all R = true)
    (sigs : List Signal) :
    ∀ p : PipeState, p.cbs.all R = true →
      ((sigs.foldl (stepSignal cid) p).cbs).all R = true := by
  induction sigs with
  | nil => intro p hp; simpa using hp
  | cons sig sigs ih =>
    intro p hp
    simp only [List.foldl_cons]
    apply ih
    simp [stepSignal, List.all_append, hp, hR p.sess sig]

theorem stepCbs_segments_visible (cid : Str) (cbs : List StreamCb) :
    ∀ (st : StreamingState) (acc : List SSE),
      (st.segments.all (fun s => !(wsOnly s))) = true →
      (((cbs.foldl
        (fun p cb =>
          ((createStreamingCallbacks cid p.1 cb).1,
            p.2 ++ (createStreamingCallbacks cid p.1 cb).2))
        (st, acc)).1.segments).all (fun s => !(wsOnly s))) = true := by
  induction cbs with
  | nil => intro st acc hst; simpa using hst
  | cons cb cbs ih =>
    intro st acc hst
    simp only [List.foldl_cons]
    apply ih
    cases cb with
    | onChunk t => simpa [createStreamingCallbacks] using hst
    | onSegmentEnd c =>
      by_cases h : wsOnly c = true
      · simpa [createStreamingCallbacks, h] using hst
      · simp only [Bool.not_eq_true] at h
        simp [createStreamingCallbacks, h, List.all_append, hst]
    | onToolStart n => simpa [createStreamingCallbacks] using hst
    | onToolEnd n => simpa [createStreamingCallbacks] using hst
    | onComplete r sid pd => simpa [createStreamingCallbacks] using hst
    | onError e => simpa [createStreamingCallbacks] using hst

theorem runSignals_segments_visible (cid : Str) (sigs : List Signal) :
    ∀ p : PipeState, (p.chat.segments.all (fun s => !(wsOnly s))) = true →
      (((sigs.foldl (stepSignal cid) p).chat.segments).all (fun s => !(wsOnly s))) = true := by
  induction sigs with
  | nil => intro p hp; simpa using hp
  | cons sig sigs ih =>
    intro p hp
    simp only [List.foldl_cons]
    apply ih
    exact stepCbs_segments_visible cid _ _ _ hp

theorem persistStreamResult_msgs_visible (tok : Option Str) (st : StreamingState)
    (hseg : (st.segments.all (fun s => !(wsOnly s))) = true) :
    (((persistStreamResult tok st).2).all (fun s => !(wsOnly s))) = true := by
  unfold persistStreamResult
  cases hpd : st.result.permissionDenials with
  | none =>
    by_cases h : wsOnly st.currentSegment = true
    · simpa [h] using hseg
    · simp only [Bool.not_eq_true] at h
      simp [h, List.all_append, hseg]
  | some ds =>
    by_cases hl : ds.length > 0
    · by_cases h : wsOnly st.currentSegment = true
      · simpa [hl, h] using hseg
      · simp only [Bool.not_eq_true] at h
        simp [hl, h, List.all_append, hseg]
    · by_cases h : wsOnly st.currentSegment = true
      · simpa [hl, h] using hseg
      · simp only [Bool.not_eq_true] at h
        simp [hl, h, List.all_append, hseg]

theorem ws_script_foldl (cid : Str) (sigs : List Signal) :
    ∀ p : PipeState,
      (sigs.all (fun s => textPayloadWs s && !(isTurnResultSig s))) = true →
      wsInv p → wsInv (sigs.foldl (stepSignal cid) p) := by
  induction sigs with
  | nil => intro p _ hp; simpa using hp
  | cons sig sigs ih =>
    intro p hall hp
    rw [List.all_cons, Bool.and_eq_true] at hall
    rcases hall with ⟨hsig, hrest⟩
    rw [Bool.and_eq_true] at hsig
    rcases hp with ⟨hseg, hwc, hws⟩
    simp only [List.foldl_cons]
    apply ih _ hrest
    cases sig with
    | sessionEstablished sid =>
      have hstep : stepSignal cid p (Signal.sessionEstablished sid) =
          { p with sess := { p.sess with sessionId := some sid } } := by
        simp [stepSignal, applySignal, stepCbs]
      rw [hstep]
      exact ⟨hseg, hwc, hws⟩
    | textDelta t =>
      have hwt : wsOnly t = true := hsig.1
      cases hlt : p.sess.lastToolName with
      | none =>
        have hstep : stepSignal cid p (Signal.textDelta t) =
            { sess := { p.sess with currentSegment := p.sess.currentSegment ++ t },
              chat := { p.chat with currentSegment := p.chat.currentSegment ++ t },
              sse := p.sse ++ [SSE.chunk t], cbs := p.cbs ++ [StreamCb.onChunk t] } := by
          simp [stepSignal, applySignal, hlt, stepCbs, createStreamingCallbacks]
        rw [hstep]
        refine ⟨hseg, ?_, ?_⟩
        · simp [wsOnly_append, hwc, hwt]
        · simp [wsOnly_append, hws, hwt]
      | some n =>
        have hstep : stepSignal cid p (Signal.textDelta t) =
            { sess :=
                { p.sess with
                  currentSegment := p.sess.currentSegment ++ t, lastToolName := none },
              chat := { p.chat with currentSegment := p.chat.currentSegment ++ t },
              sse := p.sse ++ [SSE.tool_end n, SSE.chunk t],
              cbs := p.cbs ++ [StreamCb.onToolEnd n, StreamCb.onChunk t] } := by
          simp [stepSignal, applySignal, hlt, stepCbs, createStreamingCallbacks]
        rw [hstep]
        refine ⟨hseg, ?_, ?_⟩
        · simp [wsOnly_append, hwc, hwt]
        · simp [wsOnly_append, hws, hwt]
    | toolInvoked n =>
      have hstep : stepSignal cid p (Signal.toolInvoked n) =
          { sess := { p.sess with lastToolName := some n },
            chat := p.chat,
            sse := p.sse ++ [SSE.tool_start n],
            cbs := p.cbs ++ [StreamCb.onToolStart n] } := by
        simp [stepSignal, applySignal, hws, stepCbs, createStreamingCallbacks]
      rw [hstep]
      exact ⟨hseg, hwc, hws⟩
    | slashOutput t =>
      have hwt : wsOnly t = true := hsig.1
      have hstep : stepSignal cid p (Signal.slashOutput t) =
          { sess := { p.sess with currentSegment := p.sess.currentSegment ++ t },
            chat := { p.chat with currentSegment := p.chat.currentSegment ++ t },
            sse := p.sse ++ [SSE.chunk t], cbs := p.cbs ++ [StreamCb.onChunk t] } := by
        simp [stepSignal, applySignal, stepCbs, createStreamingCallbacks]
      rw [hstep]
      refine ⟨hseg, ?_, ?_⟩
      · simp [wsOnly_append, hwc, hwt]
      · simp [wsOnly_append, hws, hwt]
    | turnResult r e d => simp [isTurnResultSig] at hsig

/-- C9: whitespace-only text is treated as empty at the public interface.
(i) No `segment_end` SSE event and no `onSegmentEnd` callback of any turn
ever carries whitespace-only content, so a whitespace-only current segment
is never finalized, neither on a tool invocation (the claude-stream.ts
guard) nor via `onSegmentEnd` (the chat.ts guard); (ii) every assistant
message persisted after the turn has visible (non-whitespace) content;
(iii) a turn whose text signals are all whitespace-only and that ends in a
denial-free success result emits `no_response` — whitespace-only
current-segment text does not count as visible output — and persists
nothing. -/
theorem whitespace_only_invisible :
    (∀ (cid : Str) (cs : Option Str) (sigs : List Signal),
      ((runSignals cid cs sigs).sse.all segEndVisible) = true
      ∧ ((runSignals cid cs sigs).cbs.all cbSegEndVisible) = true
      ∧ ∀ tok : Option Str,
          (((persistStreamResult tok (runSignals cid cs sigs).chat).2).all
            (fun s => !(wsOnly s))) = true)
    ∧ (∀ (cid : Str) (cs : Option Str) (sigs : List Signal) (r : Option Str)
        (tok : Option Str),
      (sigs.all (fun s => textPayloadWs s && !(isTurnResultSig s))) = true →
      (runSignals cid cs (sigs ++ [Signal.turnResult r false none])).sse.getLast?
          = some (SSE.no_response cid noVisibleOutputMsg)
      ∧ (persistStreamResult tok
          (runSignals cid cs (sigs ++ [Signal.turnResult r false none])).chat).2 = []) := by
  constructor
  · intro cid cs sigs
    refine ⟨?_, ?_, ?_⟩
    · exact runSignals_sse_all cid segEndVisible
        (createStreamingCallbacks_segEndVisible cid) sigs (initPipeState cs) (by simp [initPipeState])
    · exact runSignals_cbs_all cid cbSegEndVisible applySignal_cbSegEndVisible sigs
        (initPipeState cs) (by simp [initPipeState])
    · intro tok
      exact persistStreamResult_msgs_visible tok _
        (runSignals_segments_visible cid sigs (initPipeState cs) (by simp [initPipeState]))
  · intro cid cs sigs r tok hws
    have hinv : wsInv (List.foldl (stepSignal cid) (initPipeState cs) sigs) :=
      ws_script_foldl cid sigs (initPipeState cs) hws
        (by refine ⟨rfl, ?_, ?_⟩ <;> simp [initPipeState, wsOnly])
    rcases hinv with ⟨hseg, hwc, _⟩
    rw [runSignals_append]
    have hrs : runSignals cid cs sigs = List.foldl (stepSignal cid) (initPipeState cs) sigs := rfl
    simp only [List.foldl_cons, List.foldl_nil, hrs]
    rw [stepTurnResult]
    constructor
    · have hterm : terminalChoice cid none
          (List.foldl (stepSignal cid) (initPipeState cs) sigs).chat =
          SSE.no_response cid noVisibleOutputMsg := by
        simp [terminalChoice, visibleChoice, hseg, hwc]
      rw [hterm]
      rw [show ∀ (a : List SSE) (b : List SSE) (x : SSE), a ++ b ++ [x] = (a ++ b) ++ [x] from
        fun a b x => rfl]
      exact List.getLast?_concat _
    · simp [persistStreamResult, pdNorm, hseg, hwc]

/-- Witness for C9 at a concrete input: the script chunk(" "), tool T,
then a denial-free success result finalizes nothing, ends in `no_response`,
and persists nothing. -/
theorem whitespace_only_invisible_witness :
    (runSignals (("c").data) none
        ([Signal.textDelta ((" ").data), Signal.toolInvoked (("T").data)] ++
          [Signal.turnResult none false none])).sse.getLast?
        = some (SSE.no_response (("c").data) noVisibleOutputMsg)
    ∧ (persistStreamResult none
        (runSignals (("c").data) none
          ([Signal.textDelta ((" ").data), Signal.toolInvoked (("T").data)] ++
            [Signal.turnResult none false none])).chat).2 = [] :=
  whitespace_only_invisible.2 (("c").data) none
    [Signal.textDelta ((" ").data), Signal.toolInvoked (("T").data)] none none (by decide)

theorem applySignal_sessionId (s : Session) (sig : Signal) :
    ((applySignal s sig).1).sessionId = sigSidUpdate s.sessionId sig := by
  cases sig with
  | sessionEstablished sid => rfl
  | textDelta t => cases h : s.lastToolName <;> simp [applySignal, h, sigSidUpdate]
  | toolInvoked n =>
    by_cases h : wsOnly s.currentSegment = true
    · simp [applySignal, h, sigSidUpdate]
    · simp only [Bool.not_eq_true] at h
      simp [applySignal, h, sigSidUpdate]
  | slashOutput t => rfl
  | turnResult r isErr pd => cases isErr <;> simp [applySignal, sigSidUpdate]

theorem foldl_sessionId (cid : Str) (sigs : List Signal) :
    ∀ p : PipeState,
      ((sigs.foldl (stepSignal cid) p).sess.sessionId) =
        sigs.foldl sigSidUpdate p.sess.sessionId := by
  induction sigs with
  | nil => intro p; rfl
  | cons sig sigs ih =>
    intro p
    simp only [List.foldl_cons]
    rw [ih]
    have : (stepSignal cid p sig).sess.sessionId = sigSidUpdate p.sess.sessionId sig :=
      applySignal_sessionId p.sess sig
    rw [this]

theorem blockSignal_cases (b : ContentBlock) (sig : Signal)
    (h : blockSignal b = some sig) :
    (∃ t, sig = Signal.textDelta t) ∨ (∃ n, sig = Signal.toolInvoked n) := by
  unfold blockSignal at h
  by_cases h1 : b.type = ("text").data
  · rw [if_pos h1] at h
    cases ht : b.text with
    | none => rw [ht] at h; exact absurd h (by simp)
    | some t =>
      rw [ht] at h
      by_cases h2 : t = []
      · simp [h2] at h
      · simp [h2] at h
        exact Or.inl ⟨t, h.symm⟩
  · rw [if_neg h1] at h
    by_cases h3 : b.type = ("tool_use").data
    · rw [if_pos h3] at h
      cases hn : b.name with
      | none => rw [hn] at h; exact absurd h (by simp)
      | some n =>
        rw [hn] at h
        by_cases h2 : n = []
        · simp [h2] at h
        · simp [h2] at h
          exact Or.inr ⟨n, h.symm⟩
    · rw [if_neg h3] at h; exact absurd h (by simp)

theorem foldl_sigSid_const (l : List Signal)
    (h : ∀ sig ∈ l, ∀ s, sig ≠ Signal.sessionEstablished s) :
    ∀ acc, l.foldl sigSidUpdate acc = acc := by
  induction l with
  | nil => intro acc; rfl
  | cons sig sigs ih =>
    intro acc
    have hsig : sigSidUpdate acc sig = acc := by
      cases sig with
      | sessionEstablished s => exact absurd rfl (h _ (List.mem_cons_self _ _) s)
      | textDelta t => rfl
      | toolInvoked n => rfl
      | slashOutput t => rfl
      | turnResult r e d => rfl
    simp only [List.foldl_cons, hsig]
    exact ih (fun sig hm s => h sig (List.mem_cons_of_mem _ hm) s) acc

theorem classify_foldl_sigSid (m : StreamMessage) (acc : Option Str) :
    (classify m).foldl sigSidUpdate acc = sessionIdUpdate acc m := by
  unfold classify sessionIdUpdate
  by_cases h1 : m.type = ("system").data
  · rw [if_pos h1]
    by_cases h2 : m.subtype = some (("init").data)
    · rw [if_pos h2, if_pos ⟨h1, h2⟩]
      cases hs : m.session_id with
      | none => rfl
      | some s =>
        by_cases h3 : s = []
        · simp [h3]
        · simp [h3, sigSidUpdate]
    · rw [if_neg h2,
        if_neg (fun hh : m.type = ("system").data ∧ m.subtype = some (("init").data) =>
          h2 hh.2)]
      rfl
  · rw [if_neg h1,
      if_neg (fun hh : m.type = ("system").data ∧ m.subtype = some (("init").data) =>
        h1 hh.1)]
    by_cases h2 : m.type = ("assistant").data
    · rw [if_pos h2]
      cases hm : m.message with
      | none => rfl
      | some mc =>
        cases mc with
        | str s => rfl
        | blocks bs =>
          apply foldl_sigSid_const
          intro sig hmem s heq
          rcases List.mem_filterMap.mp hmem with ⟨b, _, hb⟩
          rcases blockSignal_cases b sig hb with ⟨t, ht⟩ | ⟨n, hn⟩
          · rw [ht] at heq; exact Signal.noConfusion heq
          · rw [hn] at heq; exact Signal.noConfusion heq
    · rw [if_neg h2]
      by_cases h3 : m.type = ("result").data
      · rw [if_pos h3]; rfl
      · rw [if_neg h3]
        by_cases h4 : m.type = ("user").data
        · rw [if_pos h4]
          cases hm : m.message with
          | none => rfl
          | some mc =>
            cases mc with
            | blocks bs => rfl
            | str s =>
              cases he : extractLocalCommandStdout s with
              | none => simp [he]
              | some cap =>
                by_cases h5 : cap = []
                · simp [he, h5]
                · simp [he, h5, sigSidUpdate]
        · rw [if_neg h4]; rfl

theorem flatMap_classify_sessionId (msgs : List StreamMessage) :
    ∀ acc : Option Str,
      (msgs.flatMap classify).foldl sigSidUpdate acc = msgs.foldl sessionIdUpdate acc := by
  induction msgs with
  | nil => intro acc; rfl
  | cons m msgs ih =>
    intro acc
    simp only [List.flatMap_cons, List.foldl_append, List.foldl_cons]
    rw [classify_foldl_sigSid m acc, ih]

theorem applySignal_no_complete (s : Session) (sig : Signal)
    (h : isTurnResultSig sig = false) :
    ((applySignal s sig).2).filterMap cbCompletedSid = [] := by
  cases sig with
  | sessionEstablished sid => rfl
  | textDelta t => cases hl : s.lastToolName <;> simp [applySignal, hl, cbCompletedSid]
  | toolInvoked n =>
    by_cases hw : wsOnly s.currentSegment = true
    · simp [applySignal, hw, cbCompletedSid]
    · simp only [Bool.not_eq_true] at hw
      simp [applySignal, hw, cbCompletedSid]
  | slashOutput t => simp [applySignal, cbCompletedSid]
  | turnResult r e d => simp [isTurnResultSig] at h

theorem foldl_no_complete (cid : Str) (sigs : List Signal)
    (h : (sigs.all (fun s => !(isTurnResultSig s))) = true) :
    ∀ p : PipeState,
      ((sigs.foldl (stepSignal cid) p).cbs).filterMap cbCompletedSid =
        p.cbs.filterMap cbCompletedSid := by
  induction sigs with
  | nil => intro p; rfl
  | cons sig sigs ih =>
    rw [List.all_cons, Bool.and_eq_true] at h
    intro p
    simp only [List.foldl_cons]
    rw [ih h.2]
    have hsig : isTurnResultSig sig = false := by
      have := h.1; cases hr : isTurnResultSig sig
      · rfl
      · rw [hr] at this; exact absurd this (by simp)
    simp [stepSignal, List.filterMap_append, applySignal_no_complete p.sess sig hsig]

theorem classify_no_result (m : StreamMessage)
    (h : (m.type = ("result").data) → False) :
    ((classify m).all (fun s => !(isTurnResultSig s))) = true := by
  unfold classify
  by_cases h1 : m.type = ("system").data
  · rw [if_pos h1]
    by_cases h2 : m.subtype = some (("init").data)
    · rw [if_pos h2]
      cases hs : m.session_id with
      | none => rfl
      | some s =>
        by_cases h3 : s = []
        · simp [h3]
        · simp [h3, isTurnResultSig]
    · rw [if_neg h2]; rfl
  · rw [if_neg h1]
    by_cases h2 : m.type = ("assistant").data
    · rw [if_pos h2]
      cases hm : m.message with
      | none => rfl
      | some mc =>
        cases mc with
        | str s => rfl
        | blocks bs =>
          rw [List.all_eq_true]
          intro sig hmem
          rcases List.mem_filterMap.mp hmem with ⟨b, _, hb⟩
          rcases blockSignal_cases b sig hb with ⟨t, ht⟩ | ⟨n, hn⟩
          · rw [ht]; rfl
          · rw [hn]; rfl
    · rw [if_neg h2]
      by_cases h3 : m.type = ("result").data
      · exact absurd h3 h
      · rw [if_neg h3]
        by_cases h4 : m.type = ("user").data
        · rw [if_pos h4]
          cases hm : m.message with
          | none => rfl
          | some mc =>
            cases mc with
            | blocks bs => rfl
            | str s =>
              cases he : extractLocalCommandStdout s with
              | none => simp [he]
              | some cap =>
                by_cases h5 : cap = []
                · simp [he, h5]
                · simp [he, h5, isTurnResultSig]
        · rw [if_neg h4]; rfl

theorem persist_token_inv (tok : Option Str) (st : StreamingState) (t : Str)
    (h : (persistStreamResult tok st).1 = some t) :
    st.result.sessionId = some t ∧ t ≠ [] ∧ some t ≠ tok := by
  cases hs : st.result.sessionId with
  | none =>
    have hnone : (persistStreamResult tok st).1 = none := by
      simp [persistStreamResult, hs]
    rw [hnone] at h
    exact absurd h (by simp)
  | some sid =>
    by_cases hc : sid ≠ [] ∧ some sid ≠ tok
    · have hupd : (persistStreamResult tok st).1 = some sid := by
        simp [persistStreamResult, hs, hc.1, hc.2]
      rw [hupd] at h
      have ht : sid = t := by injection h
      subst ht
      exact ⟨by simp [hs], hc.1, hc.2⟩

    · have hnone : (persistStreamResult tok st).1 = none := by
        simp [persistStreamResult, hs, hc]
      rw [hnone] at h
      exact absurd h (by simp)

/-- C10 (amended): for a turn whose stream is any prefix of non-`result`
messages followed by a successful `result` event, the session id delivered
to `onComplete` is the `session_id` of the most recent `system`/`init`
event carrying a non-empty `session_id`, falling back to the caller's
`claudeSessionId` when no such event arrived; it is also the session id
recorded in the stream result, and the caller updates the stored resume
token only when that value is non-null (in fact non-empty) and differs from
the conversation's current token. -/
theorem session_id_delivery (cid : Str) (cs : Option Str) (pre : List StreamMessage)
    (res : StreamMessage)
    (hres : res.type = ("result").data) (hok : res.is_error = false)
    (hpre : ∀ m ∈ pre, (m.type = ("result").data) → False) :
    completedSids (runMessages cid cs (pre ++ [res])) = [lastInitSessionId pre cs]
    ∧ (runMessages cid cs (pre ++ [res])).chat.result.sessionId = lastInitSessionId pre cs
    ∧ ∀ (tok : Option Str) (t : Str),
        (persistStreamResult tok (runMessages cid cs (pre ++ [res])).chat).1 = some t →
        t ≠ [] ∧ some t ≠ tok ∧ lastInitSessionId pre cs = some t := by
  have hclass : classify res = [Signal.turnResult res.result false res.permission_denials] := by
    unfold classify
    rw [hres, hok]
    rw [if_neg (show ¬((("result").data : Str) = ("system").data) from by decide)]
    rw [if_neg (show ¬((("result").data : Str) = ("assistant").data) from by decide)]
    rw [if_pos rfl]
  have hA : runMessages cid cs (pre ++ [res]) =
      stepSignal cid (runSignals cid cs (pre.flatMap classify))
        (Signal.turnResult res.result false res.permission_denials) := by
    unfold runMessages
    rw [List.flatMap_append]
    rw [runSignals_append]
    simp [hclass]
  have hsid : (runSignals cid cs (pre.flatMap classify)).sess.sessionId =
      lastInitSessionId pre cs := by
    have h1 := foldl_sessionId cid (pre.flatMap classify) (initPipeState cs)
    have h2 := flatMap_classify_sessionId pre (initPipeState cs).sess.sessionId
    unfold runSignals
    rw [h1, h2]
    rfl
  have hall : ((pre.flatMap classify).all (fun s => !(isTurnResultSig s))) = true := by
    rw [List.all_eq_true]
    intro sig hmem
    rcases List.mem_flatMap.mp hmem with ⟨m, hm, hsig⟩
    have hc := classify_no_result m (hpre m hm)
    rw [List.all_eq_true] at hc
    exact hc sig hsig
  have hnoc : completedSids (runSignals cid cs (pre.flatMap classify)) = [] := by
    have := foldl_no_complete cid _ hall (initPipeState cs)
    unfold completedSids runSignals
    rw [this]
    rfl
  have htep : (toolEndCbPart (runSignals cid cs (pre.flatMap classify)).sess).filterMap
      cbCompletedSid = [] := by
    cases h : (runSignals cid cs (pre.flatMap classify)).sess.lastToolName with
    | none => simp [toolEndCbPart, h]
    | some n => simp [toolEndCbPart, h, cbCompletedSid]
  refine ⟨?_, ?_, ?_⟩
  · rw [hA, stepTurnResult]
    unfold completedSids at *
    simp only [List.filterMap_append, hnoc, htep, List.nil_append, List.append_nil]
    simp [cbCompletedSid, hsid]
  · rw [hA, stepTurnResult]
    simp [hsid]
  · intro tok t hp
    have hinv := persist_token_inv tok _ t hp
    rcases hinv with ⟨h1, h2, h3⟩
    rw [hA, stepTurnResult] at h1
    simp only at h1
    rw [hsid] at h1
    exact ⟨h2, h3, h1⟩

/-- Witness for C10 at a concrete input: an `init` event carrying
session id `xyz` followed by a success result delivers `xyz`. -/
theorem session_id_delivery_witness :
    completedSids (runMessages (("c").data) none
        ([{ type := ("system").data, subtype := some (("init").data),
            session_id := some (("xyz").data) }] ++
          [{ type := ("result").data, result := some (("done").data) }])) =
      [lastInitSessionId
        [{ type := ("system").data, subtype := some (("init").data),
            session_id := some (("xyz").data) }] none] :=
  (session_id_delivery (("c").data) none
    [{ type := ("system").data, subtype := some (("init").data),
        session_id := some (("xyz").data) }]
    { type := ("result").data, result := some (("done").data) }
    rfl rfl (by intro m hm hty; simp at hm; rw [hm] at hty; exact absurd hty (by decide))).1

/-- C10 counterexample: the most recent `system`/`init` event observed on
the stream carries the (empty) session id `""`, so the claim as stated says
`""` is delivered to `onComplete`; the code ignores the falsy `session_id`
and delivers the caller-supplied `abc` instead. -/
theorem session_id_empty_init_ignored :
    completedSids (runMessages (("c").data) (some (("abc").data))
        [initEmptySid, resultDoneMsg]) = [some (("abc").data)]
    ∧ claimedLastInitSessionId [initEmptySid] (some (("abc").data)) = some []
    ∧ (some (("abc").data) : Option Str) ≠ some [] := by
  refine ⟨?_, ?_, ?_⟩
  · decide
  · decide
  · decide

theorem filter_cleanup_map_cb (cbs : List StreamCb) :
    ((cbs.map Action.cb).filter isCleanupAction) = [] := by
  induction cbs with
  | nil => rfl
  | cons cb cbs ih =>
    have hfalse : isCleanupAction (Action.cb cb) = false := rfl
    simp [List.filter_cons, hfalse, ih]

theorem midStep_no_cleanup (st : TurnState) (ev : MidEvent) :
    ((midStep st ev).2).filter isCleanupAction = [] := by
  cases ev with
  | chunk msgs => exact filter_cleanup_map_cb _
  | timerFires =>
    by_cases h : st.timerActive = true
    · simp only [midStep, h, if_true]
      rfl
    · simp only [Bool.not_eq_true] at h
      simp [midStep, h]

theorem runMids_no_cleanup (mids : List MidEvent) :
    ∀ (st : TurnState) (acc : List Action), acc.filter isCleanupAction = [] →
      (((mids.foldl
        (fun p ev => ((midStep p.1 ev).1, p.2 ++ (midStep p.1 ev).2))
        (st, acc)).2).filter isCleanupAction) = [] := by
  induction mids with
  | nil => intro st acc hacc; simpa using hacc
  | cons ev mids ih =>
    intro st acc hacc
    simp only [List.foldl_cons]
    exact ih _ _ (by simp [List.filter_append, hacc, midStep_no_cleanup st ev])

/-- C1 (amended): on every exit path of a turn, the `clearTimeout()` call
and the registry removal happen exactly once; the reader-lock release
happens exactly once on every path on which the reader was acquired
(normal completion, read error, timeout) — on a stdin-write failure the
turn returns before `getReader()`, so no release occurs there — and the
cleanup actions occur in the order cancel → release → remove (cancel →
remove on the write-failure path).  After any turn concludes the timer is
not pending, the lock is not held, the registry has no entry for the
conversation, and `cancelStream` returns `false`. -/
theorem cleanup_exactly_once (script : TurnScript) (cs : Option Str) :
    ((runClaudeStreaming script cs).2.filter isCleanupAction =
      if script.writeFails then [Action.cancelTimer, Action.deleteSession]
      else [Action.cancelTimer, Action.releaseLock, Action.deleteSession])
    ∧ (runClaudeStreaming script cs).1.timerActive = false
    ∧ (runClaudeStreaming script cs).1.lockHeld = false
    ∧ (runClaudeStreaming script cs).1.inRegistry = false
    ∧ (cancelStream (runClaudeStreaming script cs).1).1 = false := by
  have hpre : ∀ b : Bool,
      (((if b then [Action.evictCancelTimer, Action.evictKill, Action.evictDelete]
          else []) ++ [Action.spawnProc, Action.registerSession]).filter isCleanupAction) = [] := by
    intro b; cases b <;> rfl
  by_cases hw : script.writeFails = true
  · unfold runClaudeStreaming
    rw [hw]
    simp only [if_true]
    refine ⟨?_, by trivial, by trivial, by trivial, by trivial⟩
    simp only [List.filter_append, hpre script.hasExisting]
    rfl
  · simp only [Bool.not_eq_true] at hw
    unfold runClaudeStreaming
    rw [hw]
    simp only [Bool.false_eq_true, if_false]
    have hmids := runMids_no_cleanup script.mids
      { session := { sessionId := cs, currentSegment := [], lastToolName := none },
        timerActive := true, timedOut := false, lockHeld := true, inRegistry := true }
      [] rfl
    have hend : ∀ (st : TurnState),
        ((match script.fin with
          | LoopEnd.eofEnd => ([] : List Action)
          | LoopEnd.readErr e =>
            if st.timedOut then []
            else [Action.cb (StreamCb.onError ((("Stream read error: ").data) ++ e))]).filter
          isCleanupAction) = [] := by
      intro st
      cases script.fin with
      | eofEnd => rfl
      | readErr e =>
        by_cases ht : st.timedOut = true
        · simp [ht]
        · simp only [Bool.not_eq_true] at ht
          simp [ht, isCleanupAction]
    refine ⟨?_, by trivial, by trivial, by trivial, by trivial⟩
    simp only [List.filter_append, hpre script.hasExisting, runMids] at *
    rw [hmids, hend]
    rfl

/-- C1 counterexample: on the stdin-write-failure exit path the stdout
reader is never acquired, so — contrary to the claim — no reader-lock
release action occurs on that path (the cleanup trace is cancel → remove,
with zero releases rather than exactly one). -/
theorem write_failure_skips_lock_release :
    ((runClaudeStreaming
        { hasExisting := false, writeFails := true, mids := [], fin := LoopEnd.eofEnd }
        none).2.filter isCleanupAction) = [Action.cancelTimer, Action.deleteSession]
    ∧ Action.releaseLock ∉
      (runClaudeStreaming
        { hasExisting := false, writeFails := true, mids := [], fin := LoopEnd.eofEnd }
        none).2 := by
  exact ⟨by decide, by decide⟩

/-- C3: when `runClaudeStreaming` starts a turn for a conversation that
already has a registry entry, the prior session's timeout is cancelled, its
process receives a kill signal (the source swallows errors from killing an
already-dead process), and its registry entry is removed — all before the
new process is spawned and the new session is registered, so at most one
live session handle exists per conversation at any instant. -/
theorem evict_before_spawn (script : TurnScript) (cs : Option Str)
    (h : script.hasExisting = true) :
    ((runClaudeStreaming script cs).2.take 5) =
      [Action.evictCancelTimer, Action.evictKill, Action.evictDelete,
        Action.spawnProc, Action.registerSession] := by
  unfold runClaudeStreaming
  rw [h]
  by_cases hw : script.writeFails = true
  · rw [hw]; rfl
  · simp only [Bool.not_eq_true] at hw
    rw [hw]
    simp only [Bool.false_eq_true, if_false, if_true]
    rfl

/-- Witness for C3 at a concrete input: a turn over a conversation with an
existing session, empty stream. -/
theorem evict_before_spawn_witness :
    ((runClaudeStreaming
        { hasExisting := true, writeFails := false, mids := [], fin := LoopEnd.eofEnd }
        none).2.take 5) =
      [Action.evictCancelTimer, Action.evictKill, Action.evictDelete,
        Action.spawnProc, Action.registerSession] :=
  evict_before_spawn
    { hasExisting := true, writeFails := false, mids := [], fin := LoopEnd.eofEnd }
    none rfl

/-- C2 (code bug): the timeout callback invokes `onError` unconditionally
— there is no one-shot guard — so when the timer fires after a `result`
event has already fired `onComplete` in the same turn, two terminal
callbacks fire: the trace of the failing schedule contains both
`onComplete("done")` and `onError("Request timed out")`. -/
theorem timeout_after_result_double_fires :
    ((runClaudeStreaming c2Script none).2.filter isTerminalCb) =
      [Action.cb (StreamCb.onComplete (("done").data) none none),
        Action.cb (StreamCb.onError timeoutMsg)]
    ∧ ((runClaudeStreaming c2Script none).2.filter isTerminalCb).length = 2 := by
  exact ⟨by decide, by decide⟩

/-- Witness for C8 at a concrete input: the line `oops` is non-blank, fails
to parse, and its presence does not change the decoded output. -/
theorem invalid_line_discarded_witness :
    wsOnly ("oops").data = false ∧ witnessParse ("oops").data = none ∧
      decodeLines witnessParse ([("1").data] ++ [("oops").data] ++ [("1").data]) =
        decodeLines witnessParse ([("1").data] ++ [("1").data]) :=
  ⟨by decide, by decide,
    invalid_line_discarded witnessParse [("1").data] [("1").data] ("oops").data
      (by decide) (by decide)⟩

end Ovrlrd
